import Mathlib

/-!
Verification of the vine-reputation client library (`src/index.ts`).

The development shallowly embeds the binary protocol layer of the client:
byte-level codec helpers, Anchor-style discriminator derivation, account
decoders (`ReputationConfig`, `Reputation` in both on-chain layouts,
`ProjectMetadata`), the program-derived-address seed assembly, the
query/reconciliation loop of `fetchReputationsForDaoSeason`, the space
de-duplication of `fetchAllSpaces`, and the `addReputation` / reset
instruction builders.

External collaborators are modelled as parameters:
- `sha : String → Bytes` stands for the noble-hashes sha256 digest of the
  utf8 bytes of a preimage string (the library only ever takes the first
  8 bytes of a digest);
- `fpaddr : List Bytes → PubKey → PubKey` stands for
  `PublicKey.findProgramAddressSync(seeds, programId)[0]`, the host
  network's deterministic address-derivation primitive.

Account data is a list of byte values; numbers are `Nat` with the same
masking the JavaScript source performs (`& 0xff`, `>>> 0`, bigint limbs).
Fallible decoding is `Except String` with the source's error messages.
-/

set_option maxHeartbeats 1600000

namespace VineRep

/-- Raw account data: a sequence of byte values (each `< 256` on chain). -/
abbrev Bytes := List Nat

/-- A 32-byte account address (`PublicKey.toBytes()`). -/
abbrev PubKey := List Nat

instance {ε α : Type} [DecidableEq ε] [DecidableEq α] : DecidableEq (Except ε α) :=
  fun a b =>
    match a, b with
    | .ok x, .ok y =>
        if h : x = y then .isTrue (by rw [h])
        else .isFalse (fun hc => h (Except.ok.inj hc))
    | .error x, .error y =>
        if h : x = y then .isTrue (by rw [h])
        else .isFalse (fun hc => h (Except.error.inj hc))
    | .ok _, .error _ => .isFalse (fun hc => Except.noConfusion hc)
    | .error _, .ok _ => .isFalse (fun hc => Except.noConfusion hc)

/-- `new TextEncoder().encode(s)` for the ASCII seed strings of the client. -/
def utf8 (s : String) : Bytes := s.toList.map Char.toNat

/-- `data.subarray(start, stop)`: the bytes in positions `[start, stop)`,
clamped at the end of the buffer exactly as `Uint8Array.subarray` clamps. -/
def subarray (b : Bytes) (start stop : Nat) : Bytes := (b.take stop).drop start

/-- `u16le(n)`: two little-endian bytes `[n & 0xff, (n >>> 8) & 0xff]`. -/
def u16le (n : Nat) : Bytes := [n &&& 255, (n >>> 8) &&& 255]

/-- `u32le(n)`: four little-endian bytes. -/
def u32le (n : Nat) : Bytes :=
  [n &&& 255, (n >>> 8) &&& 255, (n >>> 16) &&& 255, (n >>> 24) &&& 255]

/-- `u64le(n)`: eight little-endian bytes of the bigint `n`
(`b[i] = Number(x & 0xffn); x >>= 8n`). -/
def u64le (n : Nat) : Bytes := (List.range 8).map (fun i => (n >>> (8 * i)) &&& 255)

/-- Value read by `readU16LE` once its bounds check has passed:
`buf[offset] | (buf[offset + 1] << 8)`. -/
def u16At (b : Bytes) (o : Nat) : Nat := (b.getD o 0) ||| ((b.getD (o + 1) 0) <<< 8)

/-- Value read by `readU32LE` once its bounds check has passed: the or-chain
of the four shifted bytes, forced unsigned by the source's `>>> 0` (for byte
values `< 256` the chain is already below `2 ^ 32`). -/
def u32At (b : Bytes) (o : Nat) : Nat :=
  ((((b.getD o 0) ||| ((b.getD (o + 1) 0) <<< 8)) |||
    ((b.getD (o + 2) 0) <<< 16)) ||| ((b.getD (o + 3) 0) <<< 24)) % 2 ^ 32

/-- Value read by `readU64LE` once its bounds check has passed:
`for (i = 7; i >= 0; i--) x = (x << 8n) + BigInt(buf[offset + i])`. -/
def u64At (b : Bytes) (o : Nat) : Nat :=
  ((List.range 8).reverse).foldl (fun x i => (x <<< 8) + b.getD (o + i) 0) 0

/-- `readU16LE(buf, offset)`: `RangeError` when `offset + 2 > buf.length`. -/
def readU16LE (b : Bytes) (o : Nat) : Except String Nat :=
  if b.length < o + 2 then .error "u16 out of bounds" else .ok (u16At b o)

/-- `readU32LE(buf, offset)`: `RangeError` when `offset + 4 > buf.length`. -/
def readU32LE (b : Bytes) (o : Nat) : Except String Nat :=
  if b.length < o + 4 then .error "u32 out of bounds" else .ok (u32At b o)

/-- `readU64LE(buf, offset)`: `RangeError` when `offset + 8 > buf.length`. -/
def readU64LE (b : Bytes) (o : Nat) : Except String Nat :=
  if b.length < o + 8 then .error "u64 out of bounds" else .ok (u64At b o)

/-!
### Discriminator engine

`anchorDiscSync(preimage)` hashes the preimage and keeps the first 8 bytes;
its memoization cache is invisible to the pure model. The digest itself is
the external `sha` parameter.
-/

/-- `camelToSnake` step 1, the global regex replace
`s.replace(/([a-z0-9])([A-Z])/g, "$1_$2")`: an underscore is inserted
between every lowercase-or-digit character and a following uppercase
character (matches cannot overlap because an uppercase character never
starts a match). -/
def insertUnderscores : List Char → List Char
  | [] => []
  | [c] => [c]
  | c :: d :: rest =>
      if (c.isLower || c.isDigit) && d.isUpper then
        c :: '_' :: insertUnderscores (d :: rest)
      else
        c :: insertUnderscores (d :: rest)

/-- `camelToSnake` step 2, the global regex replace `s.replace(/__/g, "_")`:
non-overlapping doubled underscores collapse to one. -/
def collapseUnderscores : List Char → List Char
  | '_' :: '_' :: rest => '_' :: collapseUnderscores rest
  | c :: rest => c :: collapseUnderscores rest
  | [] => []

/-- `camelToSnake(s)`: insert underscores, collapse doubled underscores,
lowercase (the names involved are ASCII, where JavaScript `toLowerCase`
agrees with `Char.toLower`). -/
def camelToSnake (s : String) : String :=
  String.mk ((collapseUnderscores (insertUnderscores s.toList)).map Char.toLower)

/-- `ixNameOnChain(ix)`: the explicit lookup table of known instruction
names, falling back to the generic `camelToSnake` conversion. -/
def ixNameOnChain (ix : String) : String :=
  if ix = "initializeConfig" then "initialize_config"
  else if ix = "setAuthority" then "set_authority"
  else if ix = "setSeason" then "set_season"
  else if ix = "setDecayBps" then "set_decay_bps"
  else if ix = "setRepMint" then "set_rep_mint"
  else if ix = "addReputation" then "add_reputation"
  else if ix = "resetReputation" then "reset_reputation"
  else if ix = "transferReputation" then "transfer_reputation"
  else if ix = "upsertProjectMetadata" then "upsert_project_metadata"
  else if ix = "closeReputation" then "close_reputation"
  else if ix = "closeProjectMetadata" then "close_project_metadata"
  else if ix = "closeConfig" then "close_config"
  else if ix = "adminCloseAny" then "admin_close_any"
  else camelToSnake ix

/-- The instruction names covered by the explicit table in `ixNameOnChain`,
paired with their on-chain snake_case names. -/
def knownIxTable : List (String × String) :=
  [("initializeConfig", "initialize_config"),
   ("setAuthority", "set_authority"),
   ("setSeason", "set_season"),
   ("setDecayBps", "set_decay_bps"),
   ("setRepMint", "set_rep_mint"),
   ("addReputation", "add_reputation"),
   ("resetReputation", "reset_reputation"),
   ("transferReputation", "transfer_reputation"),
   ("upsertProjectMetadata", "upsert_project_metadata"),
   ("closeReputation", "close_reputation"),
   ("closeProjectMetadata", "close_project_metadata"),
   ("closeConfig", "close_config"),
   ("adminCloseAny", "admin_close_any")]

/-- `ixDiscriminator(idlIxName)`: first 8 bytes of the digest of
`"global:" + ixNameOnChain(idlIxName)`. -/
def ixDiscriminator (sha : String → Bytes) (idlIxName : String) : Bytes :=
  (sha ("global:" ++ ixNameOnChain idlIxName)).take 8

/-- `accountDiscriminator(accountName)`: first 8 bytes of the digest of
`"account:" + accountName` (account names are not case-converted). -/
def accountDiscriminator (sha : String → Bytes) (accountName : String) : Bytes :=
  (sha ("account:" ++ accountName)).take 8

/-!
### Account decoders
-/

/-- Decoded `ReputationConfig` account. -/
structure ReputationConfigAccount where
  version : Nat
  daoId : PubKey
  authority : PubKey
  repMint : PubKey
  currentSeason : Nat
  decayBps : Nat
  bump : Nat
deriving DecidableEq

/-- `decodeReputationConfig(data)`. -/
def decodeReputationConfig (sha : String → Bytes) (data : Bytes) :
    Except String ReputationConfigAccount :=
  let disc := accountDiscriminator sha "ReputationConfig"
  if data.length < 8 then .error "Config data too small"
  else if subarray data 0 8 ≠ disc then
    .error "Not a ReputationConfig account (bad discriminator)"
  else if data.length < 113 then .error "Config data out of bounds"
  else do
    let currentSeason ← readU16LE data 105
    let decayBps ← readU16LE data 107
    .ok { version := data.getD 8 0
          daoId := subarray data 9 41
          authority := subarray data 41 73
          repMint := subarray data 73 105
          currentSeason := currentSeason
          decayBps := decayBps
          bump := data.getD 109 0 }

/-- Decoded `Reputation` account, legacy layout (`decodeReputation`). -/
structure ReputationAccount where
  version : Nat
  user : PubKey
  season : Nat
  points : Nat
  lastUpdateSlot : Nat
  bump : Nat
deriving DecidableEq

/-- `decodeReputation(data)`: the legacy-layout decoder. -/
def decodeReputation (sha : String → Bytes) (data : Bytes) :
    Except String ReputationAccount :=
  let disc := accountDiscriminator sha "Reputation"
  if data.length < 8 then .error "Reputation data too small"
  else if subarray data 0 8 ≠ disc then
    .error "Not a Reputation account (bad discriminator)"
  else if data.length < 64 then .error "Reputation data out of bounds"
  else do
    let season ← readU16LE data 41
    let points ← readU64LE data 43
    let lastUpdateSlot ← readU64LE data 51
    .ok { version := data.getD 8 0
          user := subarray data 9 41
          season := season
          points := points
          lastUpdateSlot := lastUpdateSlot
          bump := data.getD 59 0 }

/-- The logical record shape shared by both Reputation layouts downstream
(the fields of `decodeReputationNewLayout`; the legacy decoder's extra
`bump` is dropped at the use site). -/
structure RepDecoded where
  version : Nat
  user : PubKey
  season : Nat
  points : Nat
  lastUpdateSlot : Nat
deriving DecidableEq

/-- `isRepNewLayout(data)`: `data.length >= 92`. -/
def isRepNewLayout (data : Bytes) : Bool := 92 ≤ data.length

/-- `decodeReputationNewLayout(data)`: current layout, with the 32-byte
owning-entity id between version and user skipped over (never returned).
The reads carry their own bounds checks, as in the source. -/
def decodeReputationNewLayout (data : Bytes) : Except String RepDecoded := do
  let season ← readU16LE data 73
  let points ← readU64LE data 75
  let lastUpdateSlot ← readU64LE data 83
  .ok { version := data.getD 8 0
        user := subarray data 41 73
        season := season
        points := points
        lastUpdateSlot := lastUpdateSlot }

/-- The layout dispatch at the decode step of `fetchReputationsForDaoSeason`:
`isRepNewLayout(raw) ? decodeReputationNewLayout(raw) : decodeReputation(raw)`,
with the legacy record restricted to the shared logical shape it is consumed
through. -/
def decodeRepAuto (sha : String → Bytes) (data : Bytes) : Except String RepDecoded :=
  if isRepNewLayout data then decodeReputationNewLayout data
  else (decodeReputation sha data).map
    (fun r => { version := r.version
                user := r.user
                season := r.season
                points := r.points
                lastUpdateSlot := r.lastUpdateSlot })

/-!
### Program-derived addresses
-/

/-- `getConfigPda(daoId, programId)`: seeds `["config", daoId]`. -/
def getConfigPda (fpaddr : List Bytes → PubKey → PubKey)
    (daoId programId : PubKey) : PubKey :=
  fpaddr [utf8 "config", daoId] programId

/-- `getReputationPda(configPda, user, season, programId)`: seeds
`["reputation", configPda, user, u16le(season & 0xffff)]`. -/
def getReputationPda (fpaddr : List Bytes → PubKey → PubKey)
    (configPda user : PubKey) (season : Nat) (programId : PubKey) : PubKey :=
  fpaddr [utf8 "reputation", configPda, user, u16le (season &&& 65535)] programId

/-!
### Query/reconciliation loop of `fetchReputationsForDaoSeason`
-/

/-- One account returned by `getProgramAccounts`: its address and raw data. -/
structure Candidate where
  pubkey : PubKey
  data : Bytes
deriving DecidableEq

/-- One row of the result of `fetchReputationsForDaoSeason`. -/
structure RepRow where
  pubkey : PubKey
  user : PubKey
  season : Nat
  points : Nat
  lastUpdateSlot : Nat
deriving DecidableEq

/-- `byPk.set(a.pubkey.toBase58(), a)`: replace the entry with this key in
place, or append a fresh key at the end (JavaScript `Map` keeps the original
insertion position on overwrite). -/
def byPkInsert (m : List Candidate) (a : Candidate) : List Candidate :=
  if ∃ t ∈ m, t.pubkey = a.pubkey then
    m.map (fun t => if t.pubkey = a.pubkey then a else t)
  else m ++ [a]

/-- The de-duplication of merged filter hits by account address. -/
def dedupeByPk (l : List Candidate) : List Candidate := l.foldl byPkInsert []

/-- The per-candidate body of the reconciliation loop: length check,
discriminator check, layout-dispatched decode (a decode error is caught and
the candidate skipped), then the hard filter that re-derives the reputation
address from `(configPda, decoded.user, season)` and drops the candidate
unless it reproduces the account's actual address. -/
def processRepCandidate (sha : String → Bytes)
    (fpaddr : List Bytes → PubKey → PubKey) (programId configPda : PubKey)
    (season : Nat) (a : Candidate) : Option RepRow :=
  let disc := accountDiscriminator sha "Reputation"
  if a.data.length < 8 then none
  else if subarray a.data 0 8 ≠ disc then none
  else
    match decodeRepAuto sha a.data with
    | .error _ => none
    | .ok d =>
        let expected := getReputationPda fpaddr configPda d.user season programId
        if expected = a.pubkey then
          some { pubkey := a.pubkey
                 user := d.user
                 season := d.season
                 points := d.points
                 lastUpdateSlot := d.lastUpdateSlot }
        else none

/-- `fetchReputationsForDaoSeason`, from the merged hits of the two layout
queries onward: de-duplicate by address, run the reconciliation loop, sort
by points descending, truncate to `limit`. -/
def fetchReputationsForDaoSeason (sha : String → Bytes)
    (fpaddr : List Bytes → PubKey → PubKey) (programId daoId : PubKey)
    (season limit : Nat) (merged : List Candidate) : List RepRow :=
  let configPda := getConfigPda fpaddr daoId programId
  let out := (dedupeByPk merged).filterMap
    (processRepCandidate sha fpaddr programId configPda season)
  (out.mergeSort (fun a b => decide (b.points ≤ a.points))).take limit

/-!
### Space discovery (`fetchAllSpaces`)
-/

/-- One space row of `fetchAllSpaces`. -/
structure VineSpace where
  version : Nat
  daoId : PubKey
  authority : PubKey
  repMint : PubKey
  currentSeason : Nat
  decayBps : Nat
  configPda : PubKey
deriving DecidableEq

/-- The per-candidate body of the `fetchAllSpaces` scan: discriminator
check, decode (errors caught, candidate skipped), and the PDA check that
re-derives the config address from the decoded `daoId`. The owner check is
upstream of this model (`getProgramAccounts` returns accounts of the
program). -/
def processSpaceCandidate (sha : String → Bytes)
    (fpaddr : List Bytes → PubKey → PubKey) (programId : PubKey)
    (a : Candidate) : Option VineSpace :=
  let disc := accountDiscriminator sha "ReputationConfig"
  if a.data.length < 8 then none
  else if subarray a.data 0 8 ≠ disc then none
  else
    match decodeReputationConfig sha a.data with
    | .error _ => none
    | .ok cfg =>
        let expected := getConfigPda fpaddr cfg.daoId programId
        if expected = a.pubkey then
          some { version := cfg.version
                 daoId := cfg.daoId
                 authority := cfg.authority
                 repMint := cfg.repMint
                 currentSeason := cfg.currentSeason
                 decayBps := cfg.decayBps
                 configPda := a.pubkey }
        else none

/-- One step of the `byDao` de-duplication:
`if (!prev || s.currentSeason > prev.currentSeason) byDao.set(k, s)`,
where `byDao.set` on an existing key replaces in place. -/
def dedupeStep (m : List VineSpace) (s : VineSpace) : List VineSpace :=
  match m.find? (fun t => decide (t.daoId = s.daoId)) with
  | none => m ++ [s]
  | some prev =>
      if prev.currentSeason < s.currentSeason then
        m.map (fun t => if t.daoId = s.daoId then s else t)
      else m

/-- The `byDao` de-duplication of `fetchAllSpaces`: keep, per `daoId`, the
space with the highest `currentSeason`, first seen winning ties. -/
def dedupeByDao (l : List VineSpace) : List VineSpace := l.foldl dedupeStep []

/-- `fetchAllSpaces`, from the `getProgramAccounts` result onward. -/
def fetchAllSpaces (sha : String → Bytes)
    (fpaddr : List Bytes → PubKey → PubKey) (programId : PubKey)
    (accts : List Candidate) : List VineSpace :=
  dedupeByDao (accts.filterMap (processSpaceCandidate sha fpaddr programId))

/-!
### ProjectMetadata decoder
-/

/-- Decoded `ProjectMetadata` account; the URI string is modelled as its
raw UTF-8 payload bytes (the `TextDecoder` step is external). -/
structure ProjectMetadataAccount where
  version : Nat
  daoId : PubKey
  metadataUri : Bytes
  bump : Nat
deriving DecidableEq

/-- `decodeProjectMetadata(data)`. -/
def decodeProjectMetadata (sha : String → Bytes) (data : Bytes) :
    Except String ProjectMetadataAccount :=
  let disc := accountDiscriminator sha "ProjectMetadata"
  if data.length < 8 then .error "Metadata data too small"
  else if subarray data 0 8 ≠ disc then
    .error "Not a ProjectMetadata account (bad discriminator)"
  else if data.length < 46 then .error "Metadata data out of bounds"
  else do
    let strLen ← readU32LE data 41
    if data.length < 45 + strLen + 1 then
      .error "ProjectMetadata string length out of bounds"
    else
      .ok { version := data.getD 8 0
            daoId := subarray data 9 41
            metadataUri := subarray data 45 (45 + strLen)
            bump := data.getD (45 + strLen) 0 }

/-!
### Instruction builders (`addReputation` and the reset path)
-/

/-- One entry of an instruction's ordered account-reference list. -/
structure AccountMeta where
  pubkey : PubKey
  isSigner : Bool
  isWritable : Bool
deriving DecidableEq

/-- A `TransactionInstruction`: program id, ordered account references,
payload bytes. -/
structure Instruction where
  programId : PubKey
  keys : List AccountMeta
  data : Bytes
deriving DecidableEq

/-- `SystemProgram.programId` (the all-zero address). -/
def systemProgramId : PubKey := List.replicate 32 0

/-- The record returned by `buildAddReputationIx` / `buildResetReputationIx`. -/
structure AddRepResult where
  season : Nat
  configPda : PubKey
  repPda : PubKey
  ix : Instruction
deriving DecidableEq

/-- The current-balance fetch step of `buildAddReputationIx`: missing or
empty reputation account yields 0, otherwise the decoded `points` (a decode
failure aborts the builder). -/
def repCurrentPoints (sha : String → Bytes) (repAi : Option Bytes) :
    Except String Nat :=
  match repAi with
  | none => .ok 0
  | some d =>
      if d.length = 0 then .ok 0
      else (decodeReputation sha d).map (fun r => r.points)

/-- `buildAddReputationIx(args)`: pure model taking the fetched config
account data (`cfgAi`) and the fetched reputation account data (`repAi`) as
inputs. The payload is built as discriminator + `u64le(amount)` and then
overwritten at offset 8 with `u64le(current + amount)`; the net payload is
recorded directly. -/
def buildAddReputationIx (sha : String → Bytes)
    (fpaddr : List Bytes → PubKey → PubKey)
    (programId daoId authority payer user : PubKey) (amount : Nat)
    (seasonArg : Option Nat) (cfgAi : Option Bytes) (repAi : Option Bytes) :
    Except String AddRepResult :=
  let configPda := getConfigPda fpaddr daoId programId
  match cfgAi with
  | none => .error "Config PDA not found for this DAO."
  | some cfgData => do
      let cfg ← decodeReputationConfig sha cfgData
      let cfgSeason := cfg.currentSeason
      if 65535 < cfgSeason then
        .error ("Invalid config.currentSeason: " ++ toString cfgSeason)
      else
        let season := seasonArg.getD cfgSeason
        if season ≠ cfgSeason then
          .error ("SeasonMismatch (client): provided season=" ++ toString season ++
            " but config.currentSeason=" ++ toString cfgSeason)
        else do
          let repPda := getReputationPda fpaddr configPda user season programId
          let current ← repCurrentPoints sha repAi
          let nextTotal := current + amount
          .ok { season := season
                configPda := configPda
                repPda := repPda
                ix := { programId := programId
                        keys :=
                          [{ pubkey := configPda, isSigner := false, isWritable := false },
                           { pubkey := authority, isSigner := true, isWritable := false },
                           { pubkey := user, isSigner := false, isWritable := false },
                           { pubkey := repPda, isSigner := false, isWritable := true },
                           { pubkey := payer, isSigner := true, isWritable := true },
                           { pubkey := systemProgramId, isSigner := false, isWritable := false }]
                        data := ixDiscriminator sha "addReputation" ++ u64le nextTotal } }

/-- `buildResetReputationIx(args)`: pure model. It reuses the
`addReputation` discriminator, hardcodes the u64 payload to zero, performs
the same config fetch and season validation, and places the authority
(signer, writable) in the payer position of the account list. -/
def buildResetReputationIx (sha : String → Bytes)
    (fpaddr : List Bytes → PubKey → PubKey)
    (programId daoId authority user : PubKey)
    (seasonArg : Option Nat) (cfgAi : Option Bytes) :
    Except String AddRepResult :=
  let configPda := getConfigPda fpaddr daoId programId
  match cfgAi with
  | none => .error "Config PDA not found for this DAO."
  | some cfgData => do
      let cfg ← decodeReputationConfig sha cfgData
      let cfgSeason := cfg.currentSeason
      if 65535 < cfgSeason then
        .error ("Invalid config.currentSeason: " ++ toString cfgSeason)
      else
        let season := seasonArg.getD cfgSeason
        if season ≠ cfgSeason then
          .error ("SeasonMismatch (client): provided season=" ++ toString season ++
            " but config.currentSeason=" ++ toString cfgSeason)
        else
          let repPda := getReputationPda fpaddr configPda user season programId
          let nextTotal : Nat := 0
          .ok { season := season
                configPda := configPda
                repPda := repPda
                ix := { programId := programId
                        keys :=
                          [{ pubkey := configPda, isSigner := false, isWritable := false },
                           { pubkey := authority, isSigner := true, isWritable := false },
                           { pubkey := user, isSigner := false, isWritable := false },
                           { pubkey := repPda, isSigner := false, isWritable := true },
                           { pubkey := authority, isSigner := true, isWritable := true },
                           { pubkey := systemProgramId, isSigner := false, isWritable := false }]
                        data := ixDiscriminator sha "addReputation" ++ u64le nextTotal } }

/-- Concrete stand-in for the external sha256 digest, used to instantiate
the abstract hash parameter on concrete inputs: 32 pseudo-digest bytes
determined by the preimage length. -/
def shaStub : String → Bytes :=
  fun s => (List.range 32).map (fun i => (37 * s.length + i) % 256)

/-- A concrete 113-byte `ReputationConfig` buffer carrying the valid
discriminator for the `shaStub` digest. -/
def cfgData113 : Bytes :=
  accountDiscriminator shaStub "ReputationConfig" ++
    (List.replicate 100 0 ++ [3, 0, 16, 39, 254])

/-- Concrete stand-in for the external address-derivation primitive, used
to instantiate the abstract `fpaddr` parameter on concrete inputs: the
first 32 bytes of the concatenated seeds and program id. -/
def fpaddrStub : List Bytes → PubKey → PubKey :=
  fun seeds programId =>
    ((seeds.foldl (fun acc s => acc ++ s) []) ++ programId).take 32

/-- Concrete dao id for witnesses. -/
def daoId0 : PubKey := List.replicate 32 1

/-- Concrete authority address for witnesses. -/
def authority0 : PubKey := List.replicate 32 2

/-- Concrete payer address for witnesses. -/
def payer0 : PubKey := List.replicate 32 3

/-- Concrete user address for witnesses. -/
def user0 : PubKey := List.replicate 32 4

/-- Concrete program id for witnesses. -/
def programId0 : PubKey := List.replicate 32 9

/-- Config PDA of `daoId0` under the stub derivation. -/
def cfgPda0 : PubKey := getConfigPda fpaddrStub daoId0 programId0

/-- Reputation PDA of `(cfgPda0, user0, season 3)` under the stub derivation. -/
def repPda3 : PubKey := getReputationPda fpaddrStub cfgPda0 user0 3 programId0

/-- A 113-byte `ReputationConfig` buffer whose `currentSeason` is 3. -/
def cfgDataSeason3 : Bytes :=
  accountDiscriminator shaStub "ReputationConfig" ++
    (List.replicate 97 0 ++ [3, 0] ++ [0, 0] ++ [7] ++ List.replicate 3 0)

/-- A 92-byte current-layout `Reputation` buffer: version 1, an embedded
owning-entity id, user `user0`, season 3, points 41, slot 1000, bump 255. -/
def repData92 : Bytes :=
  accountDiscriminator shaStub "Reputation" ++
    ([1] ++ List.replicate 32 6 ++ user0 ++ [3, 0] ++ u64le 41 ++ u64le 1000 ++ [255])

/-- A 64-byte legacy-layout `Reputation` buffer: version 1, user `user0`,
season 3, points 5, slot 77, bump 9. -/
def repDataLegacy : Bytes :=
  accountDiscriminator shaStub "Reputation" ++
    ([1] ++ user0 ++ [3, 0] ++ u64le 5 ++ u64le 77 ++ [9] ++ List.replicate 4 0)

/-- Candidate stored at its correctly derived reputation address. -/
def goodCand : Candidate := { pubkey := repPda3, data := repData92 }

/-- Syntactically valid candidate stored at a wrong address. -/
def spoofCand : Candidate := { pubkey := List.replicate 32 8, data := repData92 }

/-- A 113-byte `ReputationConfig` buffer for `daoId0` with the given
season (two little-endian bytes at offset 105). -/
def spaceCfg (s : Nat) : Bytes :=
  accountDiscriminator shaStub "ReputationConfig" ++
    ([1] ++ daoId0 ++ List.replicate 64 0 ++ [s &&& 255, (s >>> 8) &&& 255] ++
      [0, 0] ++ [7] ++ List.replicate 3 0)

/-- Config candidate for `daoId0` at its derived config address. -/
def spaceCand (s : Nat) : Candidate := { pubkey := cfgPda0, data := spaceCfg s }

/-- The instruction `buildAddReputationIx` emits in the concrete witness
scenario (config season 3, no existing reputation account, amount 7). -/
def addIx0 : Instruction :=
  { programId := programId0
    keys :=
      [{ pubkey := cfgPda0, isSigner := false, isWritable := false },
       { pubkey := authority0, isSigner := true, isWritable := false },
       { pubkey := user0, isSigner := false, isWritable := false },
       { pubkey := repPda3, isSigner := false, isWritable := true },
       { pubkey := payer0, isSigner := true, isWritable := true },
       { pubkey := systemProgramId, isSigner := false, isWritable := false }]
    data := ixDiscriminator shaStub "addReputation" ++ u64le 7 }

/-- The full result record of the concrete `buildAddReputationIx` witness. -/
def addRes0 : AddRepResult :=
  { season := 3, configPda := cfgPda0, repPda := repPda3, ix := addIx0 }

/-- Two config candidates for the same dao with seasons 5 and 3. -/
def accts0 : List Candidate := [spaceCand 5, spaceCand 3]

/-- The space decoded from `spaceCand 5`. -/
def space5 : VineSpace :=
  { version := 1, daoId := daoId0, authority := List.replicate 32 0,
    repMint := List.replicate 32 0, currentSeason := 5, decayBps := 0,
    configPda := cfgPda0 }

/-- The invariant established by the `byDao` de-duplication: the keys are
pairwise distinct; every kept space splits the processed list into a strict
predecessor segment (earlier same-key entries have strictly smaller
seasons) and a successor segment (later same-key entries have seasons at
most the kept one, so the first maximal-season entry wins); and every
processed entry's key is represented. -/
def DedupeInv (p m : List VineSpace) : Prop :=
  m.Pairwise (fun a b => a.daoId ≠ b.daoId) ∧
  (∀ s ∈ m, ∃ l1 l2, p = l1 ++ s :: l2 ∧
    (∀ t ∈ l1, t.daoId = s.daoId → t.currentSeason < s.currentSeason) ∧
    (∀ t ∈ l2, t.daoId = s.daoId → t.currentSeason ≤ s.currentSeason)) ∧
  (∀ t ∈ p, ∃ s ∈ m, s.daoId = t.daoId)

/-- A `ProjectMetadata` buffer of length 48 whose declared URI length (200)
overruns the buffer. -/
def metaBad : Bytes :=
  accountDiscriminator shaStub "ProjectMetadata" ++
    ([1] ++ List.replicate 32 0 ++ [200, 0, 0, 0] ++ [65, 66, 67])

/-- A `ProjectMetadata` buffer of length 48 whose declared URI length (2)
fits exactly, with bump 9 after the two URI bytes. -/
def metaGood : Bytes :=
  accountDiscriminator shaStub "ProjectMetadata" ++
    ([1] ++ List.replicate 32 0 ++ [2, 0, 0, 0] ++ [65, 66] ++ [9])

/-- C8: with a valid `ReputationConfig` discriminator, a 112-byte buffer is
rejected with the bounds error, and a 113-byte buffer decodes successfully
with every field unpacked at its declared offset (version at 8, daoId at
9..41, authority at 41..73, repMint at 73..105, currentSeason u16le at 105,
decayBps u16le at 107, bump at 109). -/
theorem decodeReputationConfig_boundary (sha : String → Bytes) (data : Bytes)
    (hdisc : subarray data 0 8 = accountDiscriminator sha "ReputationConfig") :
    (data.length = 112 →
      decodeReputationConfig sha data = .error "Config data out of bounds") ∧
    (data.length = 113 →
      decodeReputationConfig sha data = .ok
        { version := data.getD 8 0
          daoId := subarray data 9 41
          authority := subarray data 41 73
          repMint := subarray data 73 105
          currentSeason := u16At data 105
          decayBps := u16At data 107
          bump := data.getD 109 0 }) := by
  constructor <;> intro hlen <;>
    simp [decodeReputationConfig, hdisc, hlen, readU16LE, Bind.bind, Except.bind]

/-- Witness for C8 at a concrete input: the 113-byte buffer `cfgData113`
decodes, and its 112-byte truncation is rejected with the bounds error. -/
theorem decodeReputationConfig_boundary_witness :
    (decodeReputationConfig shaStub (cfgData113.take 112) =
      .error "Config data out of bounds") ∧
    (decodeReputationConfig shaStub cfgData113 = .ok
      { version := cfgData113.getD 8 0
        daoId := subarray cfgData113 9 41
        authority := subarray cfgData113 41 73
        repMint := subarray cfgData113 73 105
        currentSeason := u16At cfgData113 105
        decayBps := u16At cfgData113 107
        bump := cfgData113.getD 109 0 }) :=
  ⟨(decodeReputationConfig_boundary shaStub (cfgData113.take 112)
      (by decide)).1 (by decide),
   (decodeReputationConfig_boundary shaStub cfgData113
      (by decide)).2 (by decide)⟩

/-- C1: the Reputation decode step selects the current layout for every
buffer of length at least 92 — version at offset 8, the 32-byte
owning-entity id at offset 9 skipped and not returned, user at 41, season
u16le at 73, points u64le at 75, lastUpdateSlot u64le at 83 — and the
legacy field order for every shorter buffer (user at 9, season at 41,
points at 43, lastUpdateSlot at 51, bump at 59); both paths land in the
same logical record shape `RepDecoded`. -/
theorem reputation_dual_layout (sha : String → Bytes) (data : Bytes) :
    (92 ≤ data.length →
      decodeRepAuto sha data = .ok
        { version := data.getD 8 0
          user := subarray data 41 73
          season := u16At data 73
          points := u64At data 75
          lastUpdateSlot := u64At data 83 }) ∧
    (data.length < 92 →
      decodeRepAuto sha data = (decodeReputation sha data).map
        (fun r => { version := r.version
                    user := r.user
                    season := r.season
                    points := r.points
                    lastUpdateSlot := r.lastUpdateSlot }) ∧
      (subarray data 0 8 = accountDiscriminator sha "Reputation" →
        64 ≤ data.length →
        decodeReputation sha data = .ok
          { version := data.getD 8 0
            user := subarray data 9 41
            season := u16At data 41
            points := u64At data 43
            lastUpdateSlot := u64At data 51
            bump := data.getD 59 0 })) := by
  refine ⟨fun hlen => ?_, fun hlen => ⟨?_, fun hdisc hlen64 => ?_⟩⟩
  · have h1 : ¬ data.length < 73 + 2 := by omega
    have h2 : ¬ data.length < 75 + 8 := by omega
    have h3 : ¬ data.length < 83 + 8 := by omega
    simp [decodeRepAuto, isRepNewLayout, decodeReputationNewLayout, readU16LE,
      readU64LE, hlen, h1, h2, h3, Bind.bind, Except.bind]
  · have h1 : ¬ 92 ≤ data.length := by omega
    simp [decodeRepAuto, isRepNewLayout, h1]
  · have h0 : ¬ data.length < 8 := by omega
    have h1 : ¬ data.length < 64 := by omega
    have h2 : ¬ data.length < 41 + 2 := by omega
    have h3 : ¬ data.length < 43 + 8 := by omega
    have h4 : ¬ data.length < 51 + 8 := by omega
    simp [decodeReputation, hdisc, h0, h1, h2, h3, h4, readU16LE, readU64LE,
      Bind.bind, Except.bind]

/-- Witness for C1 at concrete buffers: the 92-byte buffer decodes through
the current layout and the 64-byte buffer through the legacy field order. -/
theorem reputation_dual_layout_witness :
    decodeRepAuto shaStub repData92 = .ok
      { version := 1, user := user0, season := 3, points := 41, lastUpdateSlot := 1000 } ∧
    decodeReputation shaStub repDataLegacy = .ok
      { version := 1, user := user0, season := 3, points := 5, lastUpdateSlot := 77, bump := 9 } := by
  constructor
  · have h := (reputation_dual_layout shaStub repData92).1 (by decide)
    rw [h]; decide
  · have h := ((reputation_dual_layout shaStub repDataLegacy).2 (by decide)).2
      (by decide) (by decide)
    rw [h]; decide

/-- C5: for every known instruction name the discriminator is the first 8
digest bytes of `"global:"` plus the snake_case name from the explicit
lookup table, and for every other name it is the first 8 digest bytes of
`"global:"` plus the generic `camelToSnake` conversion; the conversion
maps `"myNewIx"` to `"my_new_ix"`. -/
theorem ixDiscriminator_spec (sha : String → Bytes) :
    (∀ p ∈ knownIxTable,
      ixDiscriminator sha p.1 = (sha ("global:" ++ p.2)).take 8) ∧
    (∀ name : String, (∀ p ∈ knownIxTable, name ≠ p.1) →
      ixDiscriminator sha name = (sha ("global:" ++ camelToSnake name)).take 8) ∧
    camelToSnake "myNewIx" = "my_new_ix" := by
  refine ⟨fun p hp => ?_, fun name h => ?_, by decide⟩
  · fin_cases hp <;> rfl
  · have h1 := h ("initializeConfig", "initialize_config") (by simp [knownIxTable])
    have h2 := h ("setAuthority", "set_authority") (by simp [knownIxTable])
    have h3 := h ("setSeason", "set_season") (by simp [knownIxTable])
    have h4 := h ("setDecayBps", "set_decay_bps") (by simp [knownIxTable])
    have h5 := h ("setRepMint", "set_rep_mint") (by simp [knownIxTable])
    have h6 := h ("addReputation", "add_reputation") (by simp [knownIxTable])
    have h7 := h ("resetReputation", "reset_reputation") (by simp [knownIxTable])
    have h8 := h ("transferReputation", "transfer_reputation") (by simp [knownIxTable])
    have h9 := h ("upsertProjectMetadata", "upsert_project_metadata") (by simp [knownIxTable])
    have h10 := h ("closeReputation", "close_reputation") (by simp [knownIxTable])
    have h11 := h ("closeProjectMetadata", "close_project_metadata") (by simp [knownIxTable])
    have h12 := h ("closeConfig", "close_config") (by simp [knownIxTable])
    have h13 := h ("adminCloseAny", "admin_close_any") (by simp [knownIxTable])
    simp [ixDiscriminator, ixNameOnChain, h1, h2, h3, h4, h5, h6, h7, h8,
      h9, h10, h11, h12, h13]

/-- Witness for C5: the table entry for `addReputation` and the fallback
for the unknown name `myNewIx`, at the concrete stub digest. -/
theorem ixDiscriminator_spec_witness :
    ixDiscriminator shaStub "addReputation" =
      (shaStub "global:add_reputation").take 8 ∧
    ixDiscriminator shaStub "myNewIx" = (shaStub "global:my_new_ix").take 8 := by
  constructor
  · exact (ixDiscriminator_spec shaStub).1 ("addReputation", "add_reputation")
      (by simp [knownIxTable])
  · have h := (ixDiscriminator_spec shaStub).2.1 "myNewIx" (by decide)
    have hc : ("global:" ++ camelToSnake "myNewIx") = "global:my_new_ix" := by decide
    rw [h, hc]

/-- C6: the reputation address derivation masks the season seed to 16 bits,
so any season value and its remainder modulo 65536 derive the same address. -/
theorem getReputationPda_mod_65536 (fpaddr : List Bytes → PubKey → PubKey)
    (configPda user programId : PubKey) (s : Nat) :
    getReputationPda fpaddr configPda user s programId =
      getReputationPda fpaddr configPda user (s % 65536) programId := by
  unfold getReputationPda
  have hmask : ∀ n : Nat, n &&& 65535 = n % 65536 := by
    intro n
    have h1 : (65535 : Nat) = 2 ^ 16 - 1 := by norm_num
    have h2 : (65536 : Nat) = 2 ^ 16 := by norm_num
    rw [h1, h2, Nat.and_pow_two_sub_one_eq_mod]
  have h : s % 65536 &&& 65535 = s &&& 65535 := by
    rw [hmask, hmask]; omega
  rw [h]

/-- C7: when the caller supplies a season different from the decoded
config's `currentSeason`, `buildAddReputationIx` fails — for every possible
state of the reputation account, so before the balance fetch and before any
instruction is produced — with an error message containing both values. -/
theorem addReputation_season_mismatch_guard (sha : String → Bytes)
    (fpaddr : List Bytes → PubKey → PubKey)
    (programId daoId authority payer user : PubKey) (amount : Nat) (s : Nat)
    (cfgData : Bytes) (cfg : ReputationConfigAccount)
    (hcfg : decodeReputationConfig sha cfgData = .ok cfg)
    (hbound : cfg.currentSeason ≤ 65535)
    (hne : s ≠ cfg.currentSeason) (repAi : Option Bytes) :
    buildAddReputationIx sha fpaddr programId daoId authority payer user amount
        (some s) (some cfgData) repAi =
      .error ("SeasonMismatch (client): provided season=" ++ toString s ++
        " but config.currentSeason=" ++ toString cfg.currentSeason) ∧
    (toString s).toList <:+:
      ("SeasonMismatch (client): provided season=" ++ toString s ++
        " but config.currentSeason=" ++ toString cfg.currentSeason).toList ∧
    (toString cfg.currentSeason).toList <:+:
      ("SeasonMismatch (client): provided season=" ++ toString s ++
        " but config.currentSeason=" ++ toString cfg.currentSeason).toList := by
  have hb : ¬ 65535 < cfg.currentSeason := by omega
  refine ⟨?_, ?_, ?_⟩
  · simp [buildAddReputationIx, hcfg, hb, hne, Bind.bind, Except.bind]
  · exact ⟨("SeasonMismatch (client): provided season=").toList,
      (" but config.currentSeason=" ++ toString cfg.currentSeason).toList,
      by simp [String.toList]⟩
  · exact ⟨("SeasonMismatch (client): provided season=" ++ toString s ++
        " but config.currentSeason=").toList, [],
      by simp [String.toList]⟩

/-- Witness for C7 at concrete inputs: season 5 against a config whose
current season is 3. -/
theorem addReputation_season_mismatch_guard_witness :
    buildAddReputationIx shaStub fpaddrStub programId0 daoId0 authority0 payer0
        user0 7 (some 5) (some cfgDataSeason3) none =
      .error "SeasonMismatch (client): provided season=5 but config.currentSeason=3" ∧
    (toString 5).toList <:+:
      ("SeasonMismatch (client): provided season=" ++ toString 5 ++
        " but config.currentSeason=" ++ toString 3).toList := by
  have h := addReputation_season_mismatch_guard shaStub fpaddrStub programId0
    daoId0 authority0 payer0 user0 7 5 cfgDataSeason3
    { version := 0, daoId := List.replicate 32 0, authority := List.replicate 32 0,
      repMint := List.replicate 32 0, currentSeason := 3, decayBps := 0, bump := 7 }
    (by decide) (by decide) (by decide) none
  exact ⟨h.1, h.2.1⟩

/-- C9: a `ProjectMetadata` buffer whose declared 32-bit URI length (plus
the trailing bump byte) would extend past the end of the buffer is rejected
with a bounds error; on success the declared length fits entirely within
the buffer and the returned URI payload has exactly the declared length —
no out-of-bounds read and no silent truncation. -/
theorem projectMetadata_uri_bounds (sha : String → Bytes) (data : Bytes)
    (hdisc : subarray data 0 8 = accountDiscriminator sha "ProjectMetadata") :
    (46 ≤ data.length → data.length < 45 + u32At data 41 + 1 →
      decodeProjectMetadata sha data =
        .error "ProjectMetadata string length out of bounds") ∧
    (∀ r, decodeProjectMetadata sha data = .ok r →
      45 + u32At data 41 + 1 ≤ data.length ∧
      r.metadataUri.length = u32At data 41 ∧
      r.metadataUri = subarray data 45 (45 + u32At data 41)) := by
  constructor
  · intro hlen hover
    have h0 : ¬ data.length < 8 := by omega
    have h1 : ¬ data.length < 46 := by omega
    have h2 : ¬ data.length < 41 + 4 := by omega
    simp [decodeProjectMetadata, hdisc, h0, h1, h2, hover, readU32LE,
      Bind.bind, Except.bind]
  · intro r hr
    by_cases h0 : data.length < 8
    · simp [decodeProjectMetadata, h0] at hr
    by_cases h1 : data.length < 46
    · simp [decodeProjectMetadata, hdisc, h0, h1] at hr
    by_cases h2 : data.length < 45 + u32At data 41 + 1
    · have h3 : ¬ data.length < 41 + 4 := by omega
      simp [decodeProjectMetadata, hdisc, h0, h1, h2, h3, readU32LE,
        Bind.bind, Except.bind] at hr
    · have h3 : ¬ data.length < 41 + 4 := by omega
      simp [decodeProjectMetadata, hdisc, h0, h1, h2, h3, readU32LE,
        Bind.bind, Except.bind] at hr
      refine ⟨by omega, ?_, ?_⟩
      · rw [← hr]
        simp [subarray]
        omega
      · rw [← hr]

/-- Witness for C9 at concrete buffers: a declared length of 200 in a
48-byte buffer is rejected, and a declared length of 2 decodes to a 2-byte
URI payload. -/
theorem projectMetadata_uri_bounds_witness :
    decodeProjectMetadata shaStub metaBad =
      .error "ProjectMetadata string length out of bounds" ∧
    (45 + u32At metaGood 41 + 1 ≤ metaGood.length ∧
      ({ version := 1, daoId := List.replicate 32 0, metadataUri := [65, 66],
         bump := 9 } : ProjectMetadataAccount).metadataUri.length = u32At metaGood 41 ∧
      ({ version := 1, daoId := List.replicate 32 0, metadataUri := [65, 66],
         bump := 9 } : ProjectMetadataAccount).metadataUri =
        subarray metaGood 45 (45 + u32At metaGood 41)) := by
  constructor
  · exact (projectMetadata_uri_bounds shaStub metaBad (by decide)).1
      (by decide) (by decide)
  · exact (projectMetadata_uri_bounds shaStub metaGood (by decide)).2
      { version := 1, daoId := List.replicate 32 0, metadataUri := [65, 66], bump := 9 }
      (by decide)

theorem processRepCandidate_some_pda (sha : String → Bytes)
    (fpaddr : List Bytes → PubKey → PubKey) (programId configPda : PubKey)
    (season : Nat) (a : Candidate) (row : RepRow)
    (h : processRepCandidate sha fpaddr programId configPda season a = some row) :
    getReputationPda fpaddr configPda row.user season programId = row.pubkey := by
  simp only [processRepCandidate] at h
  split at h
  · exact Option.noConfusion h
  · split at h
    · exact Option.noConfusion h
    · split at h
      · exact Option.noConfusion h
      · rename_i d hd
        split at h
        · rename_i hpda
          cases h
          simpa using hpda
        · exact Option.noConfusion h

theorem processRepCandidate_none_of_mismatch (sha : String → Bytes)
    (fpaddr : List Bytes → PubKey → PubKey) (programId configPda : PubKey)
    (season : Nat) (a : Candidate) (d : RepDecoded)
    (hd : decodeRepAuto sha a.data = .ok d)
    (hne : getReputationPda fpaddr configPda d.user season programId ≠ a.pubkey) :
    processRepCandidate sha fpaddr programId configPda season a = none := by
  simp only [processRepCandidate]
  split
  · rfl
  · split
    · rfl
    · split
      · rfl
      · rename_i d' hd'
        rw [hd] at hd'
        cases Except.ok.inj hd'
        simp [hne]

/-- C2: every row returned by the reconciliation loop of
`fetchReputationsForDaoSeason` has its address reproduced by re-deriving
the reputation PDA from the queried config address, the decoded user and
the queried season; and any candidate whose decoded contents derive a
different address — however valid its discriminator and length — is
dropped by the per-candidate filter. -/
theorem fetchReputations_pda_reconciliation (sha : String → Bytes)
    (fpaddr : List Bytes → PubKey → PubKey) (programId daoId : PubKey)
    (season limit : Nat) (merged : List Candidate) :
    (∀ row ∈ fetchReputationsForDaoSeason sha fpaddr programId daoId season limit merged,
      getReputationPda fpaddr (getConfigPda fpaddr daoId programId) row.user season
        programId = row.pubkey) ∧
    (∀ a : Candidate, ∀ d : RepDecoded,
      decodeRepAuto sha a.data = .ok d →
      getReputationPda fpaddr (getConfigPda fpaddr daoId programId) d.user season
        programId ≠ a.pubkey →
      processRepCandidate sha fpaddr programId (getConfigPda fpaddr daoId programId)
        season a = none) := by
  constructor
  · intro row hrow
    simp only [fetchReputationsForDaoSeason] at hrow
    have h2 := List.take_subset _ _ hrow
    rw [List.mem_mergeSort] at h2
    rcases List.mem_filterMap.mp h2 with ⟨a, _, hpa⟩
    exact processRepCandidate_some_pda sha fpaddr programId _ season a row hpa
  · intro a d hd hne
    exact processRepCandidate_none_of_mismatch sha fpaddr programId _ season a d hd hne

/-- Witness for C2 at a concrete scenario: a correctly stored candidate
survives with its address matching the re-derivation, and a spoofed
candidate with the same valid bytes at a wrong address is dropped. -/
theorem fetchReputations_pda_reconciliation_witness :
    getReputationPda fpaddrStub (getConfigPda fpaddrStub daoId0 programId0) user0 3
      programId0 = repPda3 ∧
    processRepCandidate shaStub fpaddrStub programId0
      (getConfigPda fpaddrStub daoId0 programId0) 3 spoofCand = none := by
  constructor
  · refine (fetchReputations_pda_reconciliation shaStub fpaddrStub programId0 daoId0
      3 10 [goodCand, spoofCand]).1
      { pubkey := repPda3, user := user0, season := 3, points := 41, lastUpdateSlot := 1000 }
      ?_
    have hfil : (dedupeByPk [goodCand, spoofCand]).filterMap
        (processRepCandidate shaStub fpaddrStub programId0
          (getConfigPda fpaddrStub daoId0 programId0) 3) =
        [{ pubkey := repPda3, user := user0, season := 3, points := 41,
           lastUpdateSlot := 1000 }] := by decide
    simp only [fetchReputationsForDaoSeason, hfil, List.mergeSort_singleton]
    simp
  · exact (fetchReputations_pda_reconciliation shaStub fpaddrStub programId0 daoId0
      3 10 [goodCand, spoofCand]).2 spoofCand
      { version := 1, user := user0, season := 3, points := 41, lastUpdateSlot := 1000 }
      (by decide) (by decide)

/-- C3: whenever `buildAddReputationIx` succeeds, its payload is the
`addReputation` discriminator followed by the u64 encoding of the fetched
current balance plus the requested amount — the new total, never the bare
delta (the balance defaults to zero exactly when the reputation account is
missing or empty, by `repCurrentPoints`). -/
theorem addReputation_encodes_new_total (sha : String → Bytes)
    (fpaddr : List Bytes → PubKey → PubKey)
    (programId daoId authority payer user : PubKey) (amount : Nat)
    (seasonArg : Option Nat) (cfgAi repAi : Option Bytes) (r : AddRepResult)
    (h : buildAddReputationIx sha fpaddr programId daoId authority payer user
      amount seasonArg cfgAi repAi = .ok r) :
    ∃ current, repCurrentPoints sha repAi = .ok current ∧
      r.ix.data = ixDiscriminator sha "addReputation" ++ u64le (current + amount) := by
  cases cfgAi with
  | none => exact Except.noConfusion h
  | some cfgData =>
    simp only [buildAddReputationIx, Bind.bind] at h
    cases hcfg : decodeReputationConfig sha cfgData with
    | error e => rw [hcfg] at h; exact Except.noConfusion h
    | ok cfg =>
      rw [hcfg] at h
      simp only [Except.bind] at h
      split at h
      · exact Except.noConfusion h
      · split at h
        · exact Except.noConfusion h
        · cases hcur : repCurrentPoints sha repAi with
          | error e => rw [hcur] at h; exact Except.noConfusion h
          | ok current =>
            rw [hcur] at h
            simp only [Except.bind] at h
            cases h
            exact ⟨current, rfl, rfl⟩

/-- Witness for C3 at a concrete scenario: no existing reputation account,
amount 7; the emitted payload carries the new total `0 + 7`. -/
theorem addReputation_encodes_new_total_witness :
    ∃ current, repCurrentPoints shaStub none = .ok current ∧
      addRes0.ix.data = ixDiscriminator shaStub "addReputation" ++ u64le (current + 7) :=
  addReputation_encodes_new_total shaStub fpaddrStub programId0 daoId0 authority0
    payer0 user0 7 none (some cfgDataSeason3) none addRes0 (by decide)

/-- C4 counterexample: for the same shared inputs, with a payer distinct
from the authority, `buildResetReputationIx` does not produce the same
result as `buildAddReputationIx` with a zero target (amount 0, no existing
reputation account): the account-reference lists differ in the payer slot,
where the reset path hardcodes the authority. -/
theorem resetReputation_counterexample :
    buildResetReputationIx shaStub fpaddrStub programId0 daoId0 authority0 user0
        none (some cfgDataSeason3) ≠
      buildAddReputationIx shaStub fpaddrStub programId0 daoId0 authority0 payer0
        user0 0 none (some cfgDataSeason3) none := by decide

/-- C4 amended: `buildResetReputationIx` coincides with
`buildAddReputationIx` run with amount 0, no reputation account fetched,
and the authority standing in as payer — same `addReputation`
discriminator, zero u64 payload, same season-matching validation, and the
same ordered account-reference list with the authority in the payer slot. -/
theorem resetReputation_is_add_zero_with_authority_payer (sha : String → Bytes)
    (fpaddr : List Bytes → PubKey → PubKey)
    (programId daoId authority user : PubKey) (seasonArg : Option Nat)
    (cfgAi : Option Bytes) :
    buildResetReputationIx sha fpaddr programId daoId authority user seasonArg cfgAi =
      buildAddReputationIx sha fpaddr programId daoId authority authority user 0
        seasonArg cfgAi none := by
  cases cfgAi with
  | none => rfl
  | some cfgData => rfl

theorem pairwise_key_unique {m : List VineSpace}
    (hp : m.Pairwise (fun a b => a.daoId ≠ b.daoId)) :
    ∀ a ∈ m, ∀ b ∈ m, a.daoId = b.daoId → a = b := by
  induction m with
  | nil => simp
  | cons x xs ih =>
    intro a ha b hb heq
    rcases List.pairwise_cons.mp hp with ⟨hx, hxs⟩
    rcases List.mem_cons.mp ha with rfl | ha'
    · rcases List.mem_cons.mp hb with rfl | hb'
      · rfl
      · exact absurd heq (hx b hb')
    · rcases List.mem_cons.mp hb with rfl | hb'
      · exact absurd heq.symm (hx a ha')
      · exact ih hxs a ha' b hb' heq

theorem dedupeStep_inv {p m : List VineSpace} (s : VineSpace)
    (h : DedupeInv p m) : DedupeInv (p ++ [s]) (dedupeStep m s) := by
  obtain ⟨hpw, hsel, hcov⟩ := h
  cases hf : m.find? (fun t => decide (t.daoId = s.daoId)) with
  | none =>
    have hstep : dedupeStep m s = m ++ [s] := by simp [dedupeStep, hf]
    rw [hstep]
    have hnone : ∀ t ∈ m, t.daoId ≠ s.daoId := by
      intro t ht
      have := List.find?_eq_none.mp hf t ht
      simpa using this
    refine ⟨?_, ?_, ?_⟩
    · rw [List.pairwise_append]
      refine ⟨hpw, List.pairwise_singleton _ _, ?_⟩
      intro a ha b hb
      simp only [List.mem_singleton] at hb
      subst hb
      exact hnone a ha
    · intro x hx
      rcases List.mem_append.mp hx with hx' | hx'
      · rcases hsel x hx' with ⟨l1, l2, hsplit, hbef, haft⟩
        refine ⟨l1, l2 ++ [s], by rw [hsplit]; simp, hbef, ?_⟩
        intro t ht htd
        rcases List.mem_append.mp ht with ht' | ht'
        · exact haft t ht' htd
        · simp only [List.mem_singleton] at ht'
          rw [ht'] at htd
          exact absurd htd.symm (hnone x hx')
      · simp only [List.mem_singleton] at hx'
        refine ⟨p, [], by rw [hx'], ?_, by simp⟩
        intro t ht htd
        rw [hx'] at htd
        rcases hcov t ht with ⟨u, hu, hud⟩
        exact absurd (hud.trans htd) (hnone u hu)
    · intro t ht
      rcases List.mem_append.mp ht with ht' | ht'
      · rcases hcov t ht' with ⟨u, hu, hud⟩
        exact ⟨u, List.mem_append_left _ hu, hud⟩
      · simp only [List.mem_singleton] at ht'
        exact ⟨s, List.mem_append_right _ (by simp), by rw [ht']⟩
  | some prev =>
    have hprevmem : prev ∈ m := List.mem_of_find?_eq_some hf
    have hprevkey : prev.daoId = s.daoId := by
      have := List.find?_some hf
      simpa using this
    have huniq := pairwise_key_unique hpw
    have hkey : ∀ t : VineSpace,
        (if t.daoId = s.daoId then s else t).daoId = t.daoId := by
      intro t
      by_cases h : t.daoId = s.daoId <;> simp [h]
    by_cases hlt : prev.currentSeason < s.currentSeason
    · have hstep : dedupeStep m s =
          m.map (fun t => if t.daoId = s.daoId then s else t) := by
        simp [dedupeStep, hf, hlt]
      rw [hstep]
      refine ⟨?_, ?_, ?_⟩
      · rw [List.pairwise_map]
        exact hpw.imp (fun {a b} hab => by rw [hkey, hkey]; exact hab)
      · intro x hx
        rcases List.mem_map.mp hx with ⟨t, htm, hft⟩
        by_cases htd : t.daoId = s.daoId
        · have ht : t = prev := huniq t htm prev hprevmem (htd.trans hprevkey.symm)
          subst ht
          rw [if_pos htd] at hft
          subst hft
          rcases hsel t htm with ⟨l1, l2, hsplit, hbef, haft⟩
          refine ⟨p, [], by simp, ?_, by simp⟩
          intro u hu hud
          rw [hsplit] at hu
          rcases List.mem_append.mp hu with hu' | hu'
          · exact lt_trans (hbef u hu' (hud.trans hprevkey.symm)) hlt
          · rcases List.mem_cons.mp hu' with rfl | hu''
            · exact hlt
            · exact lt_of_le_of_lt (haft u hu'' (hud.trans hprevkey.symm)) hlt
        · rw [if_neg htd] at hft
          subst hft
          rcases hsel t htm with ⟨l1, l2, hsplit, hbef, haft⟩
          refine ⟨l1, l2 ++ [s], by rw [hsplit]; simp, hbef, ?_⟩
          intro u hu hud
          rcases List.mem_append.mp hu with hu' | hu'
          · exact haft u hu' hud
          · simp only [List.mem_singleton] at hu'
            subst hu'
            exact absurd hud.symm htd
      · intro t ht
        rcases List.mem_append.mp ht with ht' | ht'
        · rcases hcov t ht' with ⟨u, hu, hud⟩
          refine ⟨if u.daoId = s.daoId then s else u, List.mem_map_of_mem _ hu, ?_⟩
          rw [hkey]
          exact hud
        · simp only [List.mem_singleton] at ht'
          refine ⟨s, ?_, by rw [ht']⟩
          have hmem := List.mem_map_of_mem
            (fun t => if t.daoId = s.daoId then s else t) hprevmem
          simpa [hprevkey] using hmem
    · have hstep : dedupeStep m s = m := by simp [dedupeStep, hf, hlt]
      rw [hstep]
      refine ⟨hpw, ?_, ?_⟩
      · intro x hx
        rcases hsel x hx with ⟨l1, l2, hsplit, hbef, haft⟩
        refine ⟨l1, l2 ++ [s], by rw [hsplit]; simp, hbef, ?_⟩
        intro u hu hud
        rcases List.mem_append.mp hu with hu' | hu'
        · exact haft u hu' hud
        · simp only [List.mem_singleton] at hu'
          subst hu'
          have hx' : x = prev :=
            huniq x hx prev hprevmem (hud.symm.trans hprevkey.symm)
          subst hx'
          exact Nat.le_of_not_lt hlt
      · intro t ht
        rcases List.mem_append.mp ht with ht' | ht'
        · exact hcov t ht'
        · simp only [List.mem_singleton] at ht'
          subst ht'
          exact ⟨prev, hprevmem, hprevkey⟩

theorem dedupe_foldl_inv (l : List VineSpace) :
    ∀ p m, DedupeInv p m → DedupeInv (p ++ l) (l.foldl dedupeStep m) := by
  induction l with
  | nil => intro p m h; simpa using h
  | cons s l ih =>
    intro p m h
    have h2 := ih (p ++ [s]) (dedupeStep m s) (dedupeStep_inv s h)
    simpa [List.append_assoc] using h2

theorem dedupeByDao_spec (l : List VineSpace) : DedupeInv l (dedupeByDao l) := by
  have h := dedupe_foldl_inv l [] [] ⟨List.Pairwise.nil, by simp, by simp⟩
  simpa [dedupeByDao] using h

/-- C10: `fetchAllSpaces` returns at most one space per `daoId` (the keys
of the result are pairwise distinct); each returned space is the first
entry of the validated candidate stream achieving the maximal
`currentSeason` for its `daoId` (strictly later duplicates never exceed
it, strictly earlier ones are strictly below it); and every validated
`daoId` is represented. -/
theorem fetchAllSpaces_one_per_dao (sha : String → Bytes)
    (fpaddr : List Bytes → PubKey → PubKey) (programId : PubKey)
    (accts : List Candidate) :
    (fetchAllSpaces sha fpaddr programId accts).Pairwise
      (fun a b => a.daoId ≠ b.daoId) ∧
    (∀ s ∈ fetchAllSpaces sha fpaddr programId accts,
      ∃ l1 l2, accts.filterMap (processSpaceCandidate sha fpaddr programId) =
          l1 ++ s :: l2 ∧
        (∀ t ∈ l1, t.daoId = s.daoId → t.currentSeason < s.currentSeason) ∧
        (∀ t ∈ l2, t.daoId = s.daoId → t.currentSeason ≤ s.currentSeason)) ∧
    (∀ t ∈ accts.filterMap (processSpaceCandidate sha fpaddr programId),
      ∃ s ∈ fetchAllSpaces sha fpaddr programId accts, s.daoId = t.daoId) :=
  dedupeByDao_spec (accts.filterMap (processSpaceCandidate sha fpaddr programId))

/-- Witness for C10 at a concrete scenario: two valid config accounts for
the same dao with seasons 5 and 3; the result has pairwise-distinct dao
keys, the season-5 space splits the validated stream as the kept maximum,
and the dao is represented. -/
theorem fetchAllSpaces_one_per_dao_witness :
    (fetchAllSpaces shaStub fpaddrStub programId0 accts0).Pairwise
      (fun a b => a.daoId ≠ b.daoId) ∧
    (∃ l1 l2, accts0.filterMap (processSpaceCandidate shaStub fpaddrStub programId0) =
        l1 ++ space5 :: l2 ∧
      (∀ t ∈ l1, t.daoId = space5.daoId → t.currentSeason < space5.currentSeason) ∧
      (∀ t ∈ l2, t.daoId = space5.daoId → t.currentSeason ≤ space5.currentSeason)) ∧
    (∃ s ∈ fetchAllSpaces shaStub fpaddrStub programId0 accts0,
      s.daoId = space5.daoId) := by
  refine ⟨(fetchAllSpaces_one_per_dao shaStub fpaddrStub programId0 accts0).1, ?_, ?_⟩
  · exact (fetchAllSpaces_one_per_dao shaStub fpaddrStub programId0 accts0).2.1
      space5 (by decide)
  · exact (fetchAllSpaces_one_per_dao shaStub fpaddrStub programId0 accts0).2.2
      space5 (by decide)

end VineRep
